import Mathlib

/-!
Shallow embedding of the Game of Life engine from `src/src/lib.rs`
(`Universe` with a `FixedBitSet` cell buffer), together with proofs of the
specification claims about it.

Modelling conventions:
* `FixedBitSet` is modelled as `List Bool`; `FixedBitSet::with_capacity n`
  is `List.replicate n false` (all bits start cleared).
* Reading a bit via the crate's `Index` impl (`self.cells[idx]`) returns
  `false` for an out-of-range index, hence `List.getD idx false`.
* `FixedBitSet::set` panics on an out-of-range index; the plain model uses
  `List.set` (a no-op out of range) and a separate checked model
  (`tickChecked`) returns `none` whenever the real code would panic.
* `usize` and `u8` values are modelled as `Nat` (the neighbor count is at
  most 8, and grid indices are bounded by the buffer length, so no wrap
  at the machine word size is reachable for representable grids).
* `js_sys::Math::random()` samples are modelled by an injected function
  `rnd : Nat → Bool` giving, for each loop iteration `i`, the value of the
  comparison `rnd > 0.5` in the source.
-/

structure Universe where
  width : Nat
  height : Nat
  cells : List Bool
  deriving DecidableEq, Repr

namespace Universe

/-- `fn get_index(&self, row, column) -> usize { row * self.width + column }` -/
def get_index (u : Universe) (row column : Nat) : Nat :=
  row * u.width + column

/-- `fn new(width, height)`: `FixedBitSet::with_capacity(width * height)`,
all bits cleared; no validation of the dimensions. -/
def new (width height : Nat) : Universe :=
  { width := width, height := height, cells := List.replicate (width * height) false }

/-- `pub fn new_random(width, height)`: note the source calls
`Universe::new(height, width)` with the arguments in that order, then sets
bit `i` for each `i < width * height` whose random sample exceeds `0.5`. -/
def new_random (width height : Nat) (rnd : Nat → Bool) : Universe :=
  let u0 := Universe.new height width
  { u0 with
    cells := (List.range (width * height)).foldl
      (fun cells i => if rnd i then cells.set i true else cells) u0.cells }

/-- `fn live_neighbor_count(&self, row, column) -> u8`: iterates
`delta_row ∈ [self.height - 1, 0, 1]`, `delta_col ∈ [self.width - 1, 0, 1]`,
skips the iteration when both deltas equal `0`, and accumulates
`self.cells[(row + delta_row) % height * width + (column + delta_col) % width]`. -/
def live_neighbor_count (u : Universe) (row column : Nat) : Nat :=
  [u.height - 1, 0, 1].foldl (fun count delta_row =>
    [u.width - 1, 0, 1].foldl (fun count delta_col =>
      if delta_row = 0 ∧ delta_col = 0 then count
      else
        let neighbor_row := (row + delta_row) % u.height
        let neighbor_col := (column + delta_col) % u.width
        let idx := u.get_index neighbor_row neighbor_col
        count + (u.cells.getD idx false).toNat) count) 0

/-- The `match (cell, live_neighbors)` rule table inside `tick`. -/
def next_cell (u : Universe) (row col : Nat) : Bool :=
  let idx := u.get_index row col
  let cell := u.cells.getD idx false
  let live_neighbors := u.live_neighbor_count row col
  if cell = true ∧ live_neighbors < 2 then false
  else if cell = true ∧ (live_neighbors = 2 ∨ live_neighbors = 3) then true
  else if cell = true ∧ live_neighbors > 3 then false
  else if cell = false ∧ live_neighbors = 3 then true
  else cell

/-- Inner loop of `tick`: `for col in 0..self.width { ... next.set(idx, ...) }`. -/
def tickRow (u : Universe) (row : Nat) (next : List Bool) : List Bool :=
  (List.range u.width).foldl
    (fun next col => next.set (u.get_index row col) (u.next_cell row col)) next

/-- `pub fn tick(&mut self)`: clone the buffer, recompute every cell from the
old buffer, commit the new buffer. -/
def tick (u : Universe) : Universe :=
  { u with cells := (List.range u.height).foldl (fun next row => u.tickRow row next) u.cells }

/-- Checked variant of the inner `tick` loop: models the out-of-range panic
of `FixedBitSet::set` by returning `none` whenever the computed buffer index
is not below the buffer length. -/
def tickRowChecked (u : Universe) (row : Nat) (next : List Bool) : Option (List Bool) :=
  (List.range u.width).foldl
    (fun acc col => acc.bind (fun next =>
      if u.get_index row col < next.length
      then some (next.set (u.get_index row col) (u.next_cell row col))
      else none))
    (some next)

/-- Checked variant of `tick`: in addition to the index checks of
`tickRowChecked`, it returns `none` when `height` or `width` is zero, where
the debug-build subtractions `self.height - 1` / `self.width - 1` inside
`live_neighbor_count` would fail. -/
def tickChecked (u : Universe) : Option Universe :=
  if u.height = 0 ∨ u.width = 0 then none
  else
    ((List.range u.height).foldl
      (fun acc row => acc.bind (fun next => u.tickRowChecked row next))
      (some u.cells)).map (fun next => { u with cells := next })

/-- The glyph choice of the `fmt::Display` impl. -/
def glyph (b : Bool) : Char :=
  if b then '◼' else '◻'

/-- The `fmt::Display` impl (and hence `render`): for each row, write one
glyph per cell, then write `"\n"`. -/
def render (u : Universe) : String :=
  (List.range u.height).foldl (fun s row =>
    ((List.range u.width).foldl
      (fun s col => s.push (glyph (u.cells.getD (u.get_index row col) false))) s).push '\n') ""

/-- The `set_cells` helper from the unit tests: sets
`get_index(row, col)` to alive for each listed coordinate. -/
def set_cells (u : Universe) (coords : List (Nat × Nat)) : Universe :=
  { u with cells := coords.foldl (fun cells p => cells.set (u.get_index p.1 p.2) true) u.cells }

/-- Modelled from the spec: the signed formulation of the neighbor count,
iterating `dr, dc ∈ {-1, 0, 1}`, skipping `(0, 0)`, and summing the cells at
`((row + dr + height) mod height, (column + dc + width) mod width)`.  Used to
compare the source's unsigned formulation against the spec's alternative. -/
def live_neighbor_count_signed (u : Universe) (row column : Nat) : Nat :=
  [(-1 : Int), 0, 1].foldl (fun count dr =>
    [(-1 : Int), 0, 1].foldl (fun count dc =>
      if dr = 0 ∧ dc = 0 then count
      else
        let neighbor_row := (((row : Int) + dr + (u.height : Int)) % (u.height : Int)).toNat
        let neighbor_col := (((column : Int) + dc + (u.width : Int)) % (u.width : Int)).toNat
        let idx := u.get_index neighbor_row neighbor_col
        count + (u.cells.getD idx false).toNat) count) 0

/-! ### Basic list lemmas used throughout -/

theorem getD_set_self (l : List Bool) (i : Nat) (v d : Bool) (h : i < l.length) :
    (l.set i v).getD i d = v := by
  simp [List.getD_eq_getElem?_getD, List.getElem?_set_self, List.getElem?_eq_getElem, h]

theorem getD_set_ne (l : List Bool) (i j : Nat) (v d : Bool) (h : i ≠ j) :
    (l.set i v).getD j d = l.getD j d := by
  simp [List.getD_eq_getElem?_getD, List.getElem?_set_ne h]

theorem length_foldl_set (l : List Nat) (f : Nat → Nat) (g : Nat → Bool) (acc : List Bool) :
    (l.foldl (fun a i => a.set (f i) (g i)) acc).length = acc.length := by
  induction l generalizing acc with
  | nil => rfl
  | cons x xs ih => simp [ih]

/-! ### Length and dimension preservation -/

theorem length_tickRow (u : Universe) (row : Nat) (next : List Bool) :
    (u.tickRow row next).length = next.length := by
  simpa [tickRow] using
    length_foldl_set (List.range u.width) (u.get_index row) (u.next_cell row) next

theorem length_foldl_tickRow (u : Universe) (l : List Nat) (acc : List Bool) :
    (l.foldl (fun next row => u.tickRow row next) acc).length = acc.length := by
  induction l generalizing acc with
  | nil => rfl
  | cons x xs ih => simp only [List.foldl_cons]; rw [ih, length_tickRow]

theorem length_tick_cells (u : Universe) : u.tick.cells.length = u.cells.length := by
  simpa [tick] using length_foldl_tickRow u (List.range u.height) u.cells

theorem width_tick (u : Universe) : u.tick.width = u.width := rfl

theorem height_tick (u : Universe) : u.tick.height = u.height := rfl

/-! ### Characterization of the tick loops -/

theorem tickRow_partial_getD (u : Universe) (row : Nat) (next : List Bool) (j : Nat) :
    ∀ n : Nat, row * u.width + n ≤ next.length →
    ((List.range n).foldl
        (fun next col => next.set (u.get_index row col) (u.next_cell row col)) next).getD j false
      = if ∃ c, c < n ∧ j = row * u.width + c
        then u.next_cell row (j - row * u.width)
        else next.getD j false := by
  intro n
  induction n with
  | zero => intro _; simp
  | succ n ih =>
    intro hlen
    rw [List.range_succ, List.foldl_append, List.foldl_cons, List.foldl_nil]
    have hF : ((List.range n).foldl
        (fun next col => next.set (u.get_index row col) (u.next_cell row col)) next).length
        = next.length :=
      length_foldl_set _ _ _ _
    have hidx : u.get_index row n = row * u.width + n := rfl
    rw [hidx]
    by_cases hj : j = row * u.width + n
    · subst hj
      rw [getD_set_self _ _ _ _ (by rw [hF]; show row * u.width + n < next.length; omega)]
      rw [if_pos ⟨n, Nat.lt_succ_self n, rfl⟩]
      congr 1
      omega
    · rw [getD_set_ne _ _ _ _ _ (Ne.symm hj)]
      rw [ih (by omega)]
      by_cases hex : ∃ c, c < n ∧ j = row * u.width + c
      · rw [if_pos hex]
        obtain ⟨c, hc, rfl⟩ := hex
        rw [if_pos ⟨c, by omega, rfl⟩]
      · rw [if_neg hex, if_neg]
        rintro ⟨c, hc, hceq⟩
        by_cases hcn : c = n
        · exact hj (by rw [hceq, hcn])
        · exact hex ⟨c, by omega, hceq⟩

theorem tickRow_getD (u : Universe) (row : Nat) (next : List Bool) (j : Nat)
    (hlen : row * u.width + u.width ≤ next.length) :
    (u.tickRow row next).getD j false
      = if ∃ c, c < u.width ∧ j = row * u.width + c
        then u.next_cell row (j - row * u.width)
        else next.getD j false :=
  tickRow_partial_getD u row next j u.width hlen

theorem tick_partial_getD (u : Universe) (hlen : u.cells.length = u.width * u.height) (j : Nat) :
    ∀ m : Nat, m ≤ u.height →
    ((List.range m).foldl (fun next row => u.tickRow row next) u.cells).getD j false
      = if ∃ r, r < m ∧ ∃ c, c < u.width ∧ j = r * u.width + c
        then u.next_cell (j / u.width) (j % u.width)
        else u.cells.getD j false := by
  intro m
  induction m with
  | zero => intro _; simp
  | succ m ih =>
    intro hm
    rw [List.range_succ, List.foldl_append, List.foldl_cons, List.foldl_nil]
    have hG : ((List.range m).foldl (fun next row => u.tickRow row next) u.cells).length
        = u.cells.length := length_foldl_tickRow u _ _
    have hmW : m * u.width + u.width ≤ u.cells.length := by
      calc m * u.width + u.width = (m + 1) * u.width := by ring
        _ ≤ u.height * u.width := Nat.mul_le_mul_right _ hm
        _ = u.width * u.height := Nat.mul_comm _ _
        _ = u.cells.length := hlen.symm
    rw [tickRow_getD u m _ j (by rw [hG]; exact hmW)]
    by_cases hc : ∃ c, c < u.width ∧ j = m * u.width + c
    · rw [if_pos hc]
      obtain ⟨c, hcW, rfl⟩ := hc
      rw [if_pos ⟨m, Nat.lt_succ_self m, c, hcW, rfl⟩]
      have hW : 0 < u.width := Nat.lt_of_le_of_lt (Nat.zero_le c) hcW
      have h1 : (m * u.width + c) / u.width = m := by
        rw [Nat.mul_comm, Nat.mul_add_div hW, Nat.div_eq_of_lt hcW, Nat.add_zero]
      have h2 : (m * u.width + c) % u.width = c := by
        rw [Nat.mul_comm, Nat.mul_add_mod, Nat.mod_eq_of_lt hcW]
      rw [h1, h2]
      congr 1
      omega
    · rw [if_neg hc, ih (by omega)]
      by_cases hex : ∃ r, r < m ∧ ∃ c, c < u.width ∧ j = r * u.width + c
      · rw [if_pos hex]
        obtain ⟨r, hr, c, hcW, rfl⟩ := hex
        rw [if_pos ⟨r, by omega, c, hcW, rfl⟩]
      · rw [if_neg hex, if_neg]
        rintro ⟨r, hr, c, hcW, hceq⟩
        by_cases hrm : r = m
        · exact hc ⟨c, hcW, by rw [hceq, hrm]⟩
        · exact hex ⟨r, by omega, c, hcW, hceq⟩

theorem tick_cells_getD (u : Universe) (hlen : u.cells.length = u.width * u.height)
    (r c : Nat) (hr : r < u.height) (hc : c < u.width) :
    u.tick.cells.getD (u.get_index r c) false = u.next_cell r c := by
  show ((List.range u.height).foldl (fun next row => u.tickRow row next) u.cells).getD
      (u.get_index r c) false = u.next_cell r c
  rw [tick_partial_getD u hlen _ u.height (Nat.le_refl _)]
  rw [if_pos ⟨r, hr, c, hc, rfl⟩]
  have hW : 0 < u.width := Nat.lt_of_le_of_lt (Nat.zero_le c) hc
  have h1 : u.get_index r c / u.width = r := by
    show (r * u.width + c) / u.width = r
    rw [Nat.mul_comm, Nat.mul_add_div hW, Nat.div_eq_of_lt hc, Nat.add_zero]
  have h2 : u.get_index r c % u.width = c := by
    show (r * u.width + c) % u.width = c
    rw [Nat.mul_comm, Nat.mul_add_mod, Nat.mod_eq_of_lt hc]
  rw [h1, h2]

theorem length_foldl_randSet (rnd : Nat → Bool) (l : List Nat) (acc : List Bool) :
    (l.foldl (fun cells i => if rnd i then cells.set i true else cells) acc).length
      = acc.length := by
  induction l generalizing acc with
  | nil => rfl
  | cons x xs ih =>
    simp only [List.foldl_cons]
    rw [ih]
    by_cases h : rnd x <;> simp [h]

theorem new_random_width (w h : Nat) (rnd : Nat → Bool) :
    (Universe.new_random w h rnd).width = h := rfl

theorem new_random_height (w h : Nat) (rnd : Nat → Bool) :
    (Universe.new_random w h rnd).height = w := rfl

theorem new_random_length (w h : Nat) (rnd : Nat → Bool) :
    (Universe.new_random w h rnd).cells.length = h * w := by
  show ((List.range (w * h)).foldl
      (fun cells i => if rnd i then cells.set i true else cells)
      (List.replicate (h * w) false)).length = h * w
  rw [length_foldl_randSet, List.length_replicate]

/-! ### Arithmetic bridges between the unsigned and signed neighbor offsets -/

theorem toNat_natCast_mod (a h : Nat) : ((a : Int) % (h : Int)).toNat = a % h := by
  omega

theorem toNat_mod_sub_one (a h : Nat) (h1 : 1 ≤ h) :
    (((a : Int) + -1) % (h : Int)).toNat = (a + (h - 1)) % h := by
  have e : ((a : Int) + -1) = ((a + (h - 1) : Nat) : Int) - (h : Int) := by omega
  rw [e, Int.emod_sub_cancel]
  exact toNat_natCast_mod _ _

theorem toNat_mod_add_one (a h : Nat) :
    (((a : Int) + 1) % (h : Int)).toNat = (a + 1) % h := by
  have e : ((a : Int) + 1) = ((a + 1 : Nat) : Int) := by omega
  rw [e]
  exact toNat_natCast_mod _ _

/-- On grids with both dimensions at least 2 the unsigned offsets
`{height-1, 0, 1}` / `{width-1, 0, 1}` never collide with the skipped
literal `(0, 0)` pair, and each offset wraps to the same coordinate as the
corresponding signed offset, so the two neighbor counts agree. -/
theorem lnc_eq_signed_of_two_le (u : Universe) (hW : 2 ≤ u.width) (hH : 2 ≤ u.height)
    (row col : Nat) :
    u.live_neighbor_count row col = u.live_neighbor_count_signed row col := by
  have hh1 : ¬(u.height - 1 = 0) := by omega
  have hw1 : ¬(u.width - 1 = 0) := by omega
  unfold Universe.live_neighbor_count Universe.live_neighbor_count_signed Universe.get_index
  simp only [List.foldl_cons, List.foldl_nil]
  simp [hh1, hw1]
  simp only [Universe.toNat_mod_sub_one row u.height (by omega),
    Universe.toNat_mod_sub_one col u.width (by omega),
    Universe.toNat_natCast_mod row u.height, Universe.toNat_natCast_mod col u.width,
    Universe.toNat_mod_add_one row u.height, Universe.toNat_mod_add_one col u.width]

/-! ### Bounds on accumulating folds (for the neighbor-count range) -/

theorem foldl_bound {α : Type} (g : Nat → α → Nat) (bound : α → Nat)
    (hg : ∀ c x, g c x ≤ c + bound x) :
    ∀ (l : List α) (c : Nat), l.foldl g c ≤ c + (l.map bound).sum := by
  intro l
  induction l with
  | nil => intro c; simp
  | cons x xs ih =>
    intro c
    simp only [List.foldl_cons, List.map_cons, List.sum_cons]
    calc xs.foldl g (g c x) ≤ g c x + (xs.map bound).sum := ih (g c x)
      _ ≤ c + bound x + (xs.map bound).sum := Nat.add_le_add_right (hg c x) _
      _ = c + (bound x + (xs.map bound).sum) := by omega

theorem foldl_ge {α : Type} (g : Nat → α → Nat) (hg : ∀ c x, c ≤ g c x) :
    ∀ (l : List α) (c : Nat), c ≤ l.foldl g c := by
  intro l
  induction l with
  | nil => intro c; exact Nat.le_refl c
  | cons x xs ih => intro c; exact Nat.le_trans (hg c x) (ih (g c x))

theorem foldl_step_ge {α : Type} (g : Nat → α → Nat) (hg : ∀ c x, c ≤ g c x)
    (x : α) (hx : ∀ c, c + 1 ≤ g c x) (l1 l2 : List α) (c : Nat) :
    c + 1 ≤ (l1 ++ x :: l2).foldl g c := by
  rw [List.foldl_append]
  simp only [List.foldl_cons]
  have h1 : c ≤ l1.foldl g c := foldl_ge g hg l1 c
  have h2 : l1.foldl g c + 1 ≤ g (l1.foldl g c) x := hx _
  have h3 : g (l1.foldl g c) x ≤ l2.foldl g (g (l1.foldl g c) x) := foldl_ge g hg l2 _
  omega

/-- The unsigned neighbor count never exceeds 8: the nine offset pairs
contribute at most one each, and the literal `(0, 0)` pair is always
skipped. -/
theorem lnc_le_eight (u : Universe) (row col : Nat) :
    u.live_neighbor_count row col ≤ 8 := by
  unfold Universe.live_neighbor_count
  have hinner : ∀ (c : Nat) (dr : Nat),
      ([u.width - 1, 0, 1].foldl (fun count delta_col =>
        if dr = 0 ∧ delta_col = 0 then count
        else
          count + (u.cells.getD
            (u.get_index ((row + dr) % u.height) ((col + delta_col) % u.width)) false).toNat) c)
        ≤ c + (if dr = 0 then 2 else 3) := by
    intro c dr
    refine Nat.le_trans
      (foldl_bound _ (fun dc => if dr = 0 ∧ dc = 0 then 0 else 1) ?_ _ c) ?_
    · intro c' dc
      by_cases hdc : dr = 0 ∧ dc = 0
      · simp [hdc]
      · simp only [if_neg hdc]
        exact Nat.add_le_add_left (Bool.toNat_le _) c'
    · simp only [List.map_cons, List.map_nil, List.sum_cons, List.sum_nil]
      by_cases hdr : dr = 0 <;> simp [hdr] <;> split_ifs <;> omega
  refine Nat.le_trans
    (foldl_bound _ (fun dr => if dr = 0 then 2 else 3) (fun c dr => hinner c dr) _ 0) ?_
  simp only [List.map_cons, List.map_nil, List.sum_cons, List.sum_nil]
  split_ifs <;> omega

/-- On any square grid whose flat cell `0` (coordinate `(0, 0)`) is alive,
the three corner-adjacent wrapped positions `(N-1, N-1)`, `(N-1, 0)` and
`(0, N-1)` each count at least one live neighbor. -/
theorem lnc_corner_ge_one (u : Universe) (hN : 1 ≤ u.height) (hsq : u.width = u.height)
    (halive : u.cells.getD 0 false = true) :
    1 ≤ u.live_neighbor_count (u.height - 1) (u.height - 1)
      ∧ 1 ≤ u.live_neighbor_count (u.height - 1) 0
      ∧ 1 ≤ u.live_neighbor_count 0 (u.height - 1) := by
  have e : u.height - 1 + 1 = u.height := by omega
  refine ⟨?_, ?_, ?_⟩ <;>
    · unfold Universe.live_neighbor_count Universe.get_index
      simp only [List.foldl_cons, List.foldl_nil]
      rw [hsq, e, Nat.mod_self]
      simp only [Nat.zero_mul, Nat.zero_add, Nat.add_zero, Nat.zero_mod]
      rw [halive]
      simp only [Bool.toNat_true]
      norm_num <;> omega

/-! ### The checked tick agrees with the plain tick on valid grids -/

theorem tickRowChecked_partial (u : Universe) (row : Nat) (next : List Bool) :
    ∀ n : Nat, row * u.width + n ≤ next.length →
    (List.range n).foldl
        (fun acc col => acc.bind (fun next =>
          if u.get_index row col < next.length
          then some (next.set (u.get_index row col) (u.next_cell row col))
          else none))
        (some next)
      = some ((List.range n).foldl
          (fun next col => next.set (u.get_index row col) (u.next_cell row col)) next) := by
  intro n
  induction n with
  | zero => intro _; rfl
  | succ n ih =>
    intro hlen
    rw [List.range_succ, List.foldl_append, List.foldl_append,
      List.foldl_cons, List.foldl_nil, List.foldl_cons, List.foldl_nil]
    rw [ih (by omega)]
    have hF : ((List.range n).foldl
        (fun next col => next.set (u.get_index row col) (u.next_cell row col)) next).length
        = next.length :=
      length_foldl_set _ _ _ _
    rw [Option.some_bind]
    rw [if_pos (show u.get_index row n < _ by
      rw [hF]; show row * u.width + n < next.length; omega)]

theorem tickRowChecked_eq (u : Universe) (row : Nat) (next : List Bool)
    (h : row * u.width + u.width ≤ next.length) :
    u.tickRowChecked row next = some (u.tickRow row next) :=
  tickRowChecked_partial u row next u.width h

theorem tickChecked_partial (u : Universe) (hlen : u.cells.length = u.width * u.height) :
    ∀ m : Nat, m ≤ u.height →
    (List.range m).foldl
        (fun acc row => acc.bind (fun next => u.tickRowChecked row next)) (some u.cells)
      = some ((List.range m).foldl (fun next row => u.tickRow row next) u.cells) := by
  intro m
  induction m with
  | zero => intro _; rfl
  | succ m ih =>
    intro hm
    rw [List.range_succ, List.foldl_append, List.foldl_append,
      List.foldl_cons, List.foldl_nil, List.foldl_cons, List.foldl_nil]
    rw [ih (by omega), Option.some_bind]
    have hG : ((List.range m).foldl (fun next row => u.tickRow row next) u.cells).length
        = u.cells.length := length_foldl_tickRow u _ _
    rw [tickRowChecked_eq u m _ (by
      rw [hG]
      calc m * u.width + u.width = (m + 1) * u.width := by ring
        _ ≤ u.height * u.width := Nat.mul_le_mul_right _ hm
        _ = u.width * u.height := Nat.mul_comm _ _
        _ = u.cells.length := hlen.symm)]

/-! ### Shape of the rendered snapshot -/

theorem foldl_push_data (f : Nat → Char) :
    ∀ (l : List Nat) (s : String),
    (l.foldl (fun s i => s.push (f i)) s).data = s.data ++ l.map f := by
  intro l
  induction l with
  | nil => intro s; simp
  | cons x xs ih =>
    intro s
    simp only [List.foldl_cons, List.map_cons]
    rw [ih]
    simp [String.push]

theorem render_data_aux (u : Universe) :
    ∀ (l : List Nat) (s : String),
    (l.foldl (fun s row =>
        ((List.range u.width).foldl
          (fun s col => s.push (Universe.glyph (u.cells.getD (u.get_index row col) false))) s).push
          '\n') s).data
      = s.data ++ (l.map (fun row =>
          (List.range u.width).map
            (fun col => Universe.glyph (u.cells.getD (u.get_index row col) false)) ++ ['\n'])).join := by
  intro l
  induction l with
  | nil => intro s; simp
  | cons x xs ih =>
    intro s
    simp only [List.foldl_cons, List.map_cons, List.join_cons]
    rw [ih]
    have hpush : ∀ (t : String) (c : Char), (t.push c).data = t.data ++ [c] := by
      intro t c
      simp [String.push]
    rw [hpush, foldl_push_data]
    simp [List.append_assoc]

end Universe

/-- C1: for every validly constructed grid and every in-range cell `(row, column)`,
after one `tick()` the cell is alive iff it was alive with exactly 2 or 3 live
neighbors or dead with exactly 3 live neighbors, both evaluated against the
pre-tick buffer; in all other cases it is dead. -/
theorem C1_tick_rule (u : Universe)
    (hlen : u.cells.length = u.width * u.height)
    (r c : Nat) (hr : r < u.height) (hc : c < u.width) :
    u.tick.cells.getD (u.get_index r c) false = true ↔
      ((u.cells.getD (u.get_index r c) false = true ∧
          (u.live_neighbor_count r c = 2 ∨ u.live_neighbor_count r c = 3)) ∨
        (u.cells.getD (u.get_index r c) false = false ∧ u.live_neighbor_count r c = 3)) := by
  rw [Universe.tick_cells_getD u hlen r c hr hc]
  simp only [Universe.next_cell]
  cases hcell : u.cells.getD (u.get_index r c) false <;>
    · simp only [hcell]
      split_ifs <;> simp_all <;> omega

/-- Witness for C1: on the 5×5 blinker grid, the dead cell `(2, 1)` has exactly
three live neighbors before the tick and is alive afterwards. -/
theorem C1_tick_rule_witness :
    (Universe.set_cells (Universe.new 5 5) [(1, 2), (2, 2), (3, 2)]).tick.cells.getD
      ((Universe.set_cells (Universe.new 5 5) [(1, 2), (2, 2), (3, 2)]).get_index 2 1) false
      = true := by
  exact (C1_tick_rule (Universe.set_cells (Universe.new 5 5) [(1, 2), (2, 2), (3, 2)])
    (by decide) 2 1 (by decide) (by decide)).mpr (by decide)

/-- C7: on a 5×5 grid, one `tick()` turns the vertical blinker
`{(1,2),(2,2),(3,2)}` into exactly the horizontal blinker `{(2,1),(2,2),(2,3)}`,
and a second `tick()` restores the original grid. -/
theorem C7_blinker_oscillates :
    (Universe.set_cells (Universe.new 5 5) [(1, 2), (2, 2), (3, 2)]).tick
        = Universe.set_cells (Universe.new 5 5) [(2, 1), (2, 2), (2, 3)]
      ∧ (Universe.set_cells (Universe.new 5 5) [(1, 2), (2, 2), (3, 2)]).tick.tick
        = Universe.set_cells (Universe.new 5 5) [(1, 2), (2, 2), (3, 2)] := by
  decide

/-- C10: the plain constructor `new(w, h)` returns a grid in which every
in-range cell is dead. -/
theorem C10_new_all_dead (w h : Nat) (i : Nat) (hi : i < w * h) :
    (Universe.new w h).cells.getD i true = false := by
  simp [Universe.new, List.getD_eq_getElem?_getD, List.getElem?_replicate, hi]

/-- Witness for C10: cell index 3 of a freshly constructed 2×2 grid is dead. -/
theorem C10_new_all_dead_witness :
    (Universe.new 2 2).cells.getD 3 true = false :=
  C10_new_all_dead 2 2 3 (by decide)

/-- C6: the invariant `cells.length = width * height` holds for both
constructors and is preserved by every `tick()`, and `width()`/`height()`
never change across any number of `tick()` calls. -/
theorem C6_dimension_invariant :
    (∀ w h : Nat, (Universe.new w h).cells.length
        = (Universe.new w h).width * (Universe.new w h).height)
      ∧ (∀ (w h : Nat) (rnd : Nat → Bool), (Universe.new_random w h rnd).cells.length
          = (Universe.new_random w h rnd).width * (Universe.new_random w h rnd).height)
      ∧ ∀ (u : Universe) (n : Nat),
          (Universe.tick^[n] u).cells.length = u.cells.length
            ∧ (Universe.tick^[n] u).width = u.width
            ∧ (Universe.tick^[n] u).height = u.height := by
  refine ⟨fun w h => ?_, fun w h rnd => ?_, fun u n => ?_⟩
  · simp [Universe.new]
  · rw [Universe.new_random_length, Universe.new_random_width, Universe.new_random_height]
  · induction n with
    | zero => exact ⟨rfl, rfl, rfl⟩
    | succ n ih =>
      rw [Function.iterate_succ_apply']
      exact ⟨by rw [Universe.length_tick_cells, ih.1],
        by rw [Universe.width_tick, ih.2.1],
        by rw [Universe.height_tick, ih.2.2]⟩

/-- C3 evaluation at the failing input: `new_random(2, 3)` passes its
arguments to `new` in swapped order, so the resulting grid reports
`width() = 3` and `height() = 2` (the buffer length `6` is still `2 * 3`). -/
theorem C3_new_random_swaps_dimensions :
    (Universe.new_random 2 3 (fun _ => false)).width = 3
      ∧ (Universe.new_random 2 3 (fun _ => false)).height = 2
      ∧ (Universe.new_random 2 3 (fun _ => false)).cells.length = 6 := by
  decide

/-- C4 counterexample: `new(0, 5)` is not rejected; it returns a grid with a
zero-length cell buffer, which the claim says must not happen. -/
theorem C4_counterexample_zero_width_grid :
    Universe.new 0 5 = { width := 0, height := 5, cells := [] } := by
  decide

/-- C4 amended: construction with zero width or height is not rejected —
neither constructor validates its dimensions; both return a grid whose cell
buffer has length `0`. -/
theorem C4_no_validation (w h : Nat) (rnd : Nat → Bool) (hz : w = 0 ∨ h = 0) :
    (Universe.new w h).cells.length = 0
      ∧ (Universe.new_random w h rnd).cells.length = 0 := by
  constructor
  · show (List.replicate (w * h) false).length = 0
    rw [List.length_replicate]
    rcases hz with rfl | rfl <;> simp
  · rw [Universe.new_random_length]
    rcases hz with rfl | rfl <;> simp

/-- Witness for C4 amended: at `(w, h) = (0, 5)` both constructors return a
grid with an empty buffer. -/
theorem C4_no_validation_witness :
    (Universe.new 0 5).cells.length = 0
      ∧ (Universe.new_random 0 5 (fun _ => true)).cells.length = 0 :=
  C4_no_validation 0 5 (fun _ => true) (Or.inl rfl)

/-- C2 counterexample: on a 1×1 grid with its only cell alive, the source's
unsigned neighbor count returns `5` (the offset pair values collide with the
skipped `(0, 0)` pair, so four of the nine pairs are skipped), while the
signed formulation returns `8`; the two formulations are not equivalent on
1×1 grids. -/
theorem C2_counterexample_one_by_one :
    (Universe.set_cells (Universe.new 1 1) [(0, 0)]).live_neighbor_count 0 0 = 5
      ∧ (Universe.set_cells (Universe.new 1 1) [(0, 0)]).live_neighbor_count_signed 0 0 = 8 := by
  decide

/-- C2 amended: for every grid with width ≥ 2 and height ≥ 2 and every
in-range `(row, column)`, the unsigned neighbor count (row offsets
`{height-1, 0, 1}`, column offsets `{width-1, 0, 1}`, skipping the `(0, 0)`
offset pair) equals the signed formulation over `dr, dc ∈ {-1, 0, 1}`; the
equivalence fails on grids of width 1 or height 1, where the wrapped offset
value collides with the skipped literal `0`. -/
theorem C2_signed_unsigned_equiv (u : Universe) (hW : 2 ≤ u.width) (hH : 2 ≤ u.height)
    (row col : Nat) (hr : row < u.height) (hc : col < u.width) :
    u.live_neighbor_count row col = u.live_neighbor_count_signed row col :=
  Universe.lnc_eq_signed_of_two_le u hW hH row col

/-- Witness for C2 amended: on a 2×2 grid with cell `(0, 0)` alive, both
formulations agree at `(1, 1)`. -/
theorem C2_signed_unsigned_equiv_witness :
    (Universe.set_cells (Universe.new 2 2) [(0, 0)]).live_neighbor_count 1 1
      = (Universe.set_cells (Universe.new 2 2) [(0, 0)]).live_neighbor_count_signed 1 1 :=
  C2_signed_unsigned_equiv (Universe.set_cells (Universe.new 2 2) [(0, 0)])
    (by decide) (by decide) 1 1 (by decide) (by decide)

/-- C8 counterexample: on a 1-wide, 2-tall grid with both cells alive, the
source's count at `(0, 0)` is `7`, but the number of live cells among the 8
toroidal Moore neighbors is `8` counted with multiplicity (and `2` counted as
distinct cells) — the returned value matches neither reading. -/
theorem C8_counterexample_width_one :
    (Universe.set_cells (Universe.new 1 2) [(0, 0), (1, 0)]).live_neighbor_count 0 0 = 7
      ∧ (Universe.set_cells (Universe.new 1 2) [(0, 0), (1, 0)]).live_neighbor_count_signed 0 0
          = 8 := by
  decide

/-- C8 amended: the neighbor count is always at most 8 (it is a `Nat`, so at
least 0); for grids with width ≥ 2 and height ≥ 2 it equals the number of
live cells among the 8 toroidal Moore neighbors (the signed 8-offset sum);
and on every N×N grid (N ≥ 1) whose only live cell is the corner `(0, 0)`,
the wrapped positions `(N-1, N-1)`, `(N-1, 0)` and `(0, N-1)` each count
`(0, 0)` as a live neighbor. -/
theorem C8_neighbor_count_properties :
    (∀ (u : Universe) (row col : Nat), u.live_neighbor_count row col ≤ 8)
      ∧ (∀ u : Universe, 2 ≤ u.width → 2 ≤ u.height →
          ∀ row col : Nat, row < u.height → col < u.width →
            u.live_neighbor_count row col = u.live_neighbor_count_signed row col)
      ∧ (∀ N : Nat, 1 ≤ N →
          1 ≤ (Universe.set_cells (Universe.new N N) [(0, 0)]).live_neighbor_count
              (N - 1) (N - 1)
            ∧ 1 ≤ (Universe.set_cells (Universe.new N N) [(0, 0)]).live_neighbor_count
                (N - 1) 0
            ∧ 1 ≤ (Universe.set_cells (Universe.new N N) [(0, 0)]).live_neighbor_count
                0 (N - 1)) := by
  refine ⟨fun u row col => Universe.lnc_le_eight u row col,
    fun u hW hH row col _ _ => Universe.lnc_eq_signed_of_two_le u hW hH row col,
    fun N hN => ?_⟩
  have hc0 : (Universe.set_cells (Universe.new N N) [(0, 0)]).cells
      = (List.replicate (N * N) false).set 0 true := by
    simp [Universe.set_cells, Universe.new, Universe.get_index]
  have halive : (Universe.set_cells (Universe.new N N) [(0, 0)]).cells.getD 0 false = true := by
    rw [hc0]
    exact Universe.getD_set_self _ _ _ _ (by simpa using Nat.mul_pos hN hN)
  exact Universe.lnc_corner_ge_one (Universe.set_cells (Universe.new N N) [(0, 0)]) hN rfl halive

/-- Witness for C8 amended: the bound at `(1, 1)` on an empty 3×3 grid, the
Moore equality at `(1, 1)` on a 3×3 grid with corner `(0, 0)` alive, and the
corner wraparound on the 2×2 grid. -/
theorem C8_neighbor_count_properties_witness :
    (Universe.new 3 3).live_neighbor_count 1 1 ≤ 8
      ∧ (Universe.set_cells (Universe.new 3 3) [(0, 0)]).live_neighbor_count 1 1
          = (Universe.set_cells (Universe.new 3 3) [(0, 0)]).live_neighbor_count_signed 1 1
      ∧ (1 ≤ (Universe.set_cells (Universe.new 2 2) [(0, 0)]).live_neighbor_count 1 1
          ∧ 1 ≤ (Universe.set_cells (Universe.new 2 2) [(0, 0)]).live_neighbor_count 1 0
          ∧ 1 ≤ (Universe.set_cells (Universe.new 2 2) [(0, 0)]).live_neighbor_count 0 1) :=
  ⟨C8_neighbor_count_properties.1 (Universe.new 3 3) 1 1,
    C8_neighbor_count_properties.2.1 (Universe.set_cells (Universe.new 3 3) [(0, 0)])
      (by decide) (by decide) 1 1 (by decide) (by decide),
    C8_neighbor_count_properties.2.2 2 (by decide)⟩

/-- C5: on a validly constructed grid (positive dimensions, buffer length
`width * height`), `tick()` is total: the checked transition — which fails
where the real code would panic (a zero dimension making `height - 1` /
`width - 1` underflow, or a buffer index out of range at
`FixedBitSet::set`) — succeeds and returns exactly the plain `tick`. -/
theorem C5_tick_total (u : Universe)
    (hlen : u.cells.length = u.width * u.height)
    (hW : 1 ≤ u.width) (hH : 1 ≤ u.height) :
    u.tickChecked = some u.tick := by
  unfold Universe.tickChecked
  rw [if_neg (by omega)]
  rw [Universe.tickChecked_partial u hlen u.height (Nat.le_refl _)]
  rfl

/-- Witness for C5: the checked transition succeeds on the 5×5 blinker
grid. -/
theorem C5_tick_total_witness :
    (Universe.set_cells (Universe.new 5 5) [(1, 2), (2, 2), (3, 2)]).tickChecked
      = some (Universe.set_cells (Universe.new 5 5) [(1, 2), (2, 2), (3, 2)]).tick :=
  C5_tick_total (Universe.set_cells (Universe.new 5 5) [(1, 2), (2, 2), (3, 2)])
    (by decide) (by decide) (by decide)

/-- C9: the textual snapshot is, for every grid, the concatenation of one
line per row — one glyph per cell (`'◼'` alive, `'◻'` dead) followed by a
newline, with no other separator — and on the 3×3 grid whose live cells are
the middle column it equals exactly `"◻◼◻\n◻◼◻\n◻◼◻\n"`. -/
theorem C9_render_shape :
    (∀ u : Universe,
        (u.render).data
          = ((List.range u.height).map (fun row =>
              (List.range u.width).map (fun col =>
                Universe.glyph (u.cells.getD (u.get_index row col) false)) ++ ['\n'])).join)
      ∧ (Universe.set_cells (Universe.new 3 3) [(0, 1), (1, 1), (2, 1)]).render
          = "◻◼◻\n◻◼◻\n◻◼◻\n" := by
  refine ⟨fun u => ?_, by decide⟩
  show ((List.range u.height).foldl (fun s row =>
      ((List.range u.width).foldl
        (fun s col => s.push (Universe.glyph (u.cells.getD (u.get_index row col) false))) s).push
        '\n') "").data = _
  rw [Universe.render_data_aux u (List.range u.height) ""]
  rfl
